import Mathlib

/-!
Shallow embedding of the COVID-19 dashboard data pipeline
(`src/data_processor.py`, class `CovidDataProcessor`).

Dates are modelled as natural numbers (a calendar date is an abstract day
index); a pandas `NaT` is `Option.none`.  Cumulative counts are integers.
`seven_day_avg` (a pandas float with integral inputs) is modelled as `ℚ`.

The two pandas date parsers (`pd.to_datetime` applied to a string column
with inferred format, and with an explicit `format=` argument) are library
functions outside the repository; they are abstracted as parameters of type
`String → Option Nat` wherever the pipeline invokes them, and instantiated
with a concrete executable parser in witnesses.
-/

namespace Covid

/-- One row of the raw wide-format frame loaded from the CSV:
`Province/State` (nullable), `Country/Region`, `Lat`, `Long`, and one
cumulative count per date column. -/
structure RawRow where
  province : Option String
  country  : String
  lat      : Int
  long     : Int
  counts   : List Int
deriving DecidableEq, Repr

/-- The loaded frame `self.data`: a header (`columns`) and the data rows.
The first four columns are the identification columns; `df.columns[4:]`
are the date labels. -/
structure RawTable where
  columns : List String
  rows    : List RawRow
deriving DecidableEq, Repr

/-- One row of the melted (long-format) frame before date conversion:
columns `Province/State`, `Country/Region`, `Date` (still a string label),
`Confirmed`. -/
structure MeltRow where
  province  : Option String
  country   : String
  label     : String
  confirmed : Int
deriving DecidableEq, Repr

/-- One row of the melted frame after `pd.to_datetime`: the `Date` column
now holds a datetime or `NaT` (`none`). -/
structure LongRow where
  province  : Option String
  country   : String
  date      : Option Nat
  confirmed : Int
deriving DecidableEq, Repr

/-- One row of `country_data` after the `groupby(['Country/Region','Date'])
['Confirmed'].sum()` step (grouping keys never carry `NaT`). -/
structure AggRow where
  country   : String
  date      : Nat
  confirmed : Int
deriving DecidableEq, Repr

/-- One row of the final `country_data` frame with the two derived columns
`Daily_New` and `Seven_Day_Average`. -/
structure CountryDayRow where
  country       : String
  date          : Nat
  confirmed     : Int
  daily_new     : Int
  seven_day_avg : ℚ
deriving DecidableEq, Repr

/-- The exceptions the processor raises, named after the spec's error
taxonomy; comments give the concrete Python exception. -/
inductive ProcErr where
  /-- `ValueError("No data to process. Please load data first.")` in
  `process_data`. -/
  | noData
  /-- `ValueError("No data loaded. Please load data first.")` in
  `filter_data`. -/
  | notLoaded
  /-- pandas `KeyError` raised by `df.melt` when an `id_vars` column is
  absent from the frame. -/
  | malformedInput
  /-- error raised by scalar `pd.to_datetime` on an unparsable argument in
  `filter_data`. -/
  | dateParse
deriving DecidableEq, Repr

instance {ε α : Type} [DecidableEq ε] [DecidableEq α] :
    DecidableEq (Except ε α) := fun a b =>
  match a, b with
  | .ok x, .ok y => decidable_of_iff (x = y) (by simp)
  | .error x, .error y => decidable_of_iff (x = y) (by simp)
  | .ok _, .error _ => isFalse (by simp)
  | .error _, .ok _ => isFalse (by simp)

/-- The processor's mutable state: `self.data` (raw frame) and
`self.country_data` (derived frame); `None` before assignment. -/
structure ProcState where
  data         : Option RawTable
  country_data : Option (List CountryDayRow)
deriving DecidableEq, Repr

/-- The four `id_vars` of the melt step. -/
def idColumns : List String :=
  ["Province/State", "Country/Region", "Lat", "Long"]

/-- `df.columns[4:]` — every column after the fourth is a date column. -/
def dateLabels (t : RawTable) : List String := t.columns.drop 4

/-- `df.melt(id_vars=..., value_vars=date_columns, var_name='Date',
value_name='Confirmed')`: pandas stacks one block per date column (all rows
for the first date column, then all rows for the second, ...). -/
def melt (t : RawTable) : List MeltRow :=
  (List.range (dateLabels t).length).flatMap fun j =>
    t.rows.filterMap fun r =>
      match (dateLabels t)[j]?, r.counts[j]? with
      | some lab, some cnt => some ⟨r.province, r.country, lab, cnt⟩
      | _, _ => none

/-- `pd.to_datetime` applied to a value that is already a datetime (or
`NaT`): pandas returns it unchanged — a `format=` argument cannot re-parse
a column whose dtype is already `datetime64`, and `NaT` stays `NaT`. -/
def toDatetimeOnDatetime (d : Option Nat) : Option Nat := d

/-- Lines 73–86 of `process_data`, acting on the `Date` column:
first `pd.to_datetime(melted_df['Date'], errors='coerce')` with the
inferred primary format (`parseP`); then, if any `NaT` remains, the code
runs `pd.to_datetime(melted_df['Date'], format='%m/%d/%y', errors='coerce')`
— but on the column it has just overwritten, which is already
`datetime64`, so this second call is `toDatetimeOnDatetime` and the
`format=` argument is never applied to the original labels. -/
def convertDates (parseP : String → Option Nat) (ms : List MeltRow) :
    List LongRow :=
  let d1 := ms.map fun m =>
    LongRow.mk m.province m.country (parseP m.label) m.confirmed
  let natCount := (d1.filter fun r => r.date.isNone).length
  if natCount > 0 then
    d1.map fun r => { r with date := toDatetimeOnDatetime r.date }
  else d1

/-- `melted_df['Date'].isna().sum()` after the conversion step: the number
of rows whose date is `NaT`, logged to `self.debug_info` (observable by the
caller). -/
def natCountAfter (parseP : String → Option Nat) (ms : List MeltRow) : Nat :=
  ((convertDates parseP ms).filter fun r => r.date.isNone).length

/-- Modelled from the spec: the Reshaper contract of §4.1 — "Parsing must
try a primary format first; if a row's parsed date is invalid (parse
failure), retry with a documented alternate format before giving up."  The
original label is re-parsed with the alternate parser `parseA`.  This is
what the source's comment "try an alternative parsing approach" intends;
compare with `convertDates`, which the source actually executes. -/
def convertDatesSpec (parseP parseA : String → Option Nat)
    (ms : List MeltRow) : List LongRow :=
  ms.map fun m =>
    LongRow.mk m.province m.country
      ((parseP m.label).orElse fun _ => parseA m.label) m.confirmed

/-- The grouping key of a melted row: `(Country/Region, Date)`; pandas
`groupby` drops rows whose key contains `NaT`. -/
def longKey (l : LongRow) : Option (String × Nat) :=
  l.date.map fun d => (l.country, d)

/-- Strict lexicographic comparison of character sequences by Unicode code
point — the order Python's `sorted` and pandas use on string keys. -/
def lexLtB : List Char → List Char → Bool
  | [], [] => false
  | [], _ :: _ => true
  | _ :: _, [] => false
  | a :: as, b :: bs =>
    if a.toNat < b.toNat then true
    else if b.toNat < a.toNat then false
    else lexLtB as bs

/-- Strict lexicographic order on strings. -/
def strLt (a b : String) : Prop := lexLtB a.data b.data = true

/-- Lexicographic order on strings (`a ≤ b` iff not `b < a`). -/
def strLe (a b : String) : Prop := lexLtB b.data a.data = false

instance : DecidableRel strLt := fun a b => by
  unfold strLt; infer_instance

instance : DecidableRel strLe := fun a b => by
  unfold strLe; infer_instance

theorem lexLtB_asymm : ∀ {a b : List Char},
    lexLtB a b = true → lexLtB b a = false
  | [], [], _ => rfl
  | [], _ :: _, _ => rfl
  | _ :: _, [], h => by simp [lexLtB] at h
  | a :: as, b :: bs, h => by
    simp only [lexLtB] at h ⊢
    rcases Nat.lt_trichotomy a.toNat b.toNat with hab | hab | hab
    · simp [hab, Nat.lt_asymm hab]
    · simp only [hab, Nat.lt_irrefl, if_false] at h ⊢
      exact lexLtB_asymm h
    · simp [hab, Nat.lt_asymm hab] at h

theorem lexLtB_trans : ∀ {a b c : List Char},
    lexLtB a b = true → lexLtB b c = true → lexLtB a c = true
  | [], _ :: _, _ :: _, _, _ => rfl
  | a :: as, b :: bs, c :: cs, h1, h2 => by
    simp only [lexLtB] at h1 h2 ⊢
    rcases Nat.lt_trichotomy a.toNat b.toNat with hab | hab | hab <;>
      rcases Nat.lt_trichotomy b.toNat c.toNat with hbc | hbc | hbc
    · simp [Nat.lt_trans hab hbc]
    · simp [hbc ▸ hab]
    · simp [hab, Nat.lt_asymm hab, hbc, Nat.lt_asymm hbc] at h2
    · simp [hab ▸ hbc]
    · simp only [hab, hbc, Nat.lt_irrefl, if_false] at h1 h2 ⊢
      exact lexLtB_trans h1 h2
    · simp [hbc, Nat.lt_asymm hbc] at h2
    · simp [hab, Nat.lt_asymm hab] at h1
    · simp [hab, Nat.lt_asymm hab] at h1
    · simp [hab, Nat.lt_asymm hab] at h1

theorem lexLtB_connected : ∀ {a b : List Char},
    lexLtB a b = false → lexLtB b a = false → a = b
  | [], [], _, _ => rfl
  | [], _ :: _, h, _ => by simp [lexLtB] at h
  | _ :: _, [], _, h => by simp [lexLtB] at h
  | a :: as, b :: bs, h1, h2 => by
    simp only [lexLtB] at h1 h2
    rcases Nat.lt_trichotomy a.toNat b.toNat with hab | hab | hab
    · simp [hab] at h1
    · have ha : a = b := by
        have := congrArg Char.ofNat hab
        rwa [Char.ofNat_toNat, Char.ofNat_toNat] at this
      subst ha
      simp only [Nat.lt_irrefl, if_false] at h1 h2
      rw [lexLtB_connected h1 h2]
    · simp [hab, Nat.lt_asymm hab] at h2

/-- The ascending order pandas `groupby(..., sort=True)` uses on the
composite key `(Country/Region, Date)`: lexicographic on the pair. -/
def keyLE (a b : String × Nat) : Prop :=
  strLt a.1 b.1 ∨ (a.1 = b.1 ∧ a.2 ≤ b.2)

instance : DecidableRel keyLE := fun a b => by
  unfold keyLE; infer_instance

theorem strLt_or_eq_or_gt (a b : String) : strLt a b ∨ a = b ∨ strLt b a := by
  rcases h1 : lexLtB a.data b.data with _ | _
  · rcases h2 : lexLtB b.data a.data with _ | _
    · refine Or.inr (Or.inl ?_)
      cases a; cases b
      exact congrArg String.mk (lexLtB_connected h1 h2)
    · exact Or.inr (Or.inr h2)
  · exact Or.inl h1

theorem strLt_asymm {a b : String} (h : strLt a b) : ¬ strLt b a := by
  intro h2
  have h3 := lexLtB_asymm h
  rw [h2] at h3
  exact Bool.noConfusion h3

theorem strLt_trans {a b c : String} (h1 : strLt a b) (h2 : strLt b c) :
    strLt a c := lexLtB_trans h1 h2

theorem strLt_irrefl (a : String) : ¬ strLt a a := fun h => strLt_asymm h h

instance : IsTotal (String × Nat) keyLE := by
  constructor
  intro a b
  rcases strLt_or_eq_or_gt a.1 b.1 with h | h | h
  · exact Or.inl (Or.inl h)
  · rcases Nat.le_total a.2 b.2 with h2 | h2
    · exact Or.inl (Or.inr ⟨h, h2⟩)
    · exact Or.inr (Or.inr ⟨h.symm, h2⟩)
  · exact Or.inr (Or.inl h)

instance : IsTrans (String × Nat) keyLE := by
  constructor
  intro a b c hab hbc
  rcases hab with h1 | ⟨h1, h1'⟩
  · rcases hbc with h2 | ⟨h2, _⟩
    · exact Or.inl (strLt_trans h1 h2)
    · exact Or.inl (h2 ▸ h1)
  · rcases hbc with h2 | ⟨h2, h2'⟩
    · exact Or.inl (h1 ▸ h2)
    · exact Or.inr ⟨h1.trans h2, h1'.trans h2'⟩

instance : IsTotal String strLe := by
  constructor
  intro a b
  rcases h : lexLtB b.data a.data with _ | _
  · exact Or.inl h
  · exact Or.inr (lexLtB_asymm h)

instance : IsTrans String strLe := by
  constructor
  intro a b c hab hbc
  show lexLtB c.data a.data = false
  rcases h : lexLtB c.data a.data with _ | _
  · rfl
  · exfalso
    rcases h3 : lexLtB b.data c.data with _ | _
    · have hbc2 : b = c := by
        cases b; cases c
        exact congrArg String.mk (lexLtB_connected h3 hbc)
      subst hbc2
      rw [hab] at h
      exact Bool.noConfusion h
    · have := lexLtB_trans h3 h
      rw [hab] at this
      exact Bool.noConfusion this

/-- `['Confirmed'].sum()` over one group: the sum of `Confirmed` over the
melted rows whose `(Country/Region, Date)` key equals `k` — every region
row of the country contributes, the `Province/State` value (present or
missing) is not consulted. -/
def sumFor (ls : List LongRow) (k : String × Nat) : Int :=
  (ls.map fun l =>
    if l.country = k.1 ∧ l.date = some k.2 then l.confirmed else 0).sum

/-- The distinct group keys, in the ascending order `groupby(sort=True)`
produces. -/
def aggKeys (ls : List LongRow) : List (String × Nat) :=
  List.insertionSort keyLE (ls.filterMap longKey).dedup

/-- Line 90: `melted_df.groupby(['Country/Region','Date'])['Confirmed']
.sum().reset_index()` — one output row per distinct key present in the
input, keys sorted ascending, `Confirmed` summed across the group. -/
def aggregate (ls : List LongRow) : List AggRow :=
  (aggKeys ls).map fun k => ⟨k.1, k.2, sumFor ls k⟩

/-- Tail of `.diff()` followed by `.clip(lower=0)`: each element minus its
predecessor (`prev` seeds the first), clamped at zero. -/
def diffClipGo (prev : Int) : List Int → List Int
  | [] => []
  | c :: rest => max 0 (c - prev) :: diffClipGo c rest

/-- Lines 101–104 on one country group: `.diff()` (first element `NaN`),
`.fillna(0)`, `.clip(lower=0)`. -/
def diffClip : List Int → List Int
  | [] => []
  | c :: rest => 0 :: diffClipGo c rest

/-- Lines 108–109 on one country group: `.rolling(window=7,
min_periods=1).mean()` — at index `i` the mean of the trailing window of
the last at most 7 values (indices `i+1-7` through `i`). -/
def rollMean7 (xs : List Int) : List ℚ :=
  (List.range xs.length).map fun i =>
    let w := (xs.take (i + 1)).drop (i + 1 - 7)
    ((w.sum : Int) : ℚ) / (w.length : ℚ)

/-- Reassemble one country group: each aggregated row with its `Daily_New`
and `Seven_Day_Average` entry. -/
def combine : List AggRow → List Int → List ℚ → List CountryDayRow
  | r :: g, d :: ds, q :: qs =>
      ⟨r.country, r.date, r.confirmed, d, q⟩ :: combine g ds qs
  | _, _, _ => []

/-- The two derived columns on one country group (rows of a single
country, in frame order). -/
def deriveGroup (g : List AggRow) : List CountryDayRow :=
  let daily := diffClip (g.map fun r => r.confirmed)
  combine g daily (rollMean7 daily)

/-- Lines 101–109: `groupby('Country/Region')` followed by `.diff()` /
`.clip` / `.rolling(7, min_periods=1).mean()`, results assigned back to the
frame.  A group is the set of rows of one country; the grouped frame is
sorted by `(Country/Region, Date)` (the `groupby` of line 90 sorts keys),
so each country's rows are contiguous and in ascending country order, and
index-aligned assignment of per-group results coincides with
concatenating the per-group results country by country. -/
def deriveMetrics (rows : List AggRow) : List CountryDayRow :=
  ((rows.map fun r => r.country).dedup).flatMap fun c =>
    deriveGroup (rows.filter fun r => r.country == c)

/-- The full derived frame produced by `process_data` from a raw frame
whose structure is valid: melt, date conversion, aggregation, metric
derivation. -/
def derivedTable (parseP : String → Option Nat) (raw : RawTable) :
    List CountryDayRow :=
  deriveMetrics (aggregate (convertDates parseP (melt raw)))

/-- `process_data` (lines 40–130) as a state transformer.  `self.data is
None` raises; `df.melt` raises a `KeyError` when an `id_vars` column is
missing from the frame; otherwise the pipeline runs and line 117 publishes
the result to `self.country_data`.  The checks of lines 69, 95 and 112
(`'Date' not in columns`) always pass: melting and grouping construct that
column.  On an error, no assignment to `self.country_data` has happened
(line 117 is the only one), so the caller's state is unchanged. -/
def process_data (parseP : String → Option Nat) (st : ProcState) :
    Except ProcErr (List CountryDayRow × ProcState) :=
  match st.data with
  | none => .error .noData
  | some raw =>
      if idColumns.all (fun c => raw.columns.contains c) then
        let cd := derivedTable parseP raw
        .ok (cd, { st with country_data := some cd })
      else .error .malformedInput

/-- Executable stand-in for scalar `pd.to_datetime` on the `start_date` /
`end_date` arguments of `filter_data` (a library call): parses a decimal
day index, fails (`none` modelling the raised error) on anything else. -/
def parseDateStr (s : String) : Option Nat :=
  if s.data ≠ [] ∧ s.data.all (fun c => c.isDigit) then
    some (s.data.foldl (fun n c => 10 * n + (c.toNat - 48)) 0)
  else none

/-- Lines 179–200 of `filter_data`, given the derived frame: filter by
exact country match; if the result is empty, return it at once (line 186,
before any date conversion); otherwise convert `start_date` and `end_date`
(either failure raises) and keep rows with `start ≤ Date ≤ end`, both ends
inclusive. -/
def filterCore (cd : List CountryDayRow) (country startS endS : String) :
    Except ProcErr (List CountryDayRow) :=
  if (cd.filter fun r => r.country == country).isEmpty then
    .ok (cd.filter fun r => r.country == country)
  else
    match parseDateStr startS with
    | none => .error .dateParse
    | some sd =>
        match parseDateStr endS with
        | none => .error .dateParse
        | some ed =>
            .ok ((cd.filter fun r => r.country == country).filter
              fun r => decide (sd ≤ r.date) && decide (r.date ≤ ed))

/-- `filter_data` (lines 147–205).  When `self.country_data is None` the
method does not fail if raw data is present: it calls `self.process_data()`
(lines 157–158) and answers from the freshly derived frame; only when
`self.data is None` too does it raise (line 161).  The "still None after
processing" check of line 163 is unreachable in the model: `process_data`
returns the table it publishes. -/
def filter_data (parseP : String → Option Nat) (st : ProcState)
    (country startS endS : String) : Except ProcErr (List CountryDayRow) :=
  match st.country_data with
  | some cd => filterCore cd country startS endS
  | none =>
      match st.data with
      | none => .error .notLoaded
      | some _ =>
          match process_data parseP st with
          | .error e => .error e
          | .ok (cd, _) => filterCore cd country startS endS

/-- `get_country_list` (lines 132–145): `[]` when `self.data is None`,
otherwise `sorted(self.data['Country/Region'].unique())`.  `unique`
removes duplicates (keeping one occurrence; the subsequent full sort makes
which occurrence irrelevant) and `sorted` orders them ascending.  The
surrounding `try/except` returns `[]` instead of raising; in the model the
function is total, so that branch is dead. -/
def get_country_list (st : ProcState) : List String :=
  match st.data with
  | none => []
  | some raw =>
      List.insertionSort strLe ((raw.rows.map fun r => r.country).dedup)

/-- Modelled from the spec: the window of §4.3 step 2 — the slice
`daily_new[max(0,i-6) .. i]` — and its arithmetic mean.  (On `Nat`,
`i - 6` is already `max 0 (i - 6)`.) -/
def windowMean (xs : List Int) (i : Nat) : ℚ :=
  let w := (xs.drop (i - 6)).take (i - (i - 6) + 1)
  ((w.sum : Int) : ℚ) / (w.length : ℚ)

/-- The rows of one country in the final derived frame, in frame order —
what `filter_data` selects by its country predicate and what the claims
about per-country columns quantify over. -/
def countryRows (parseP : String → Option Nat) (raw : RawTable)
    (c : String) : List CountryDayRow :=
  (derivedTable parseP raw).filter fun x => x.country == c

/-! ### Concrete frames used by witnesses and counterexamples -/

/-- A raw frame with three date columns: country "A" has a cumulative
decrease on day 2 (5, 3, 10), country "B" has two subdivision rows, one
with a missing region name. -/
def rawW : RawTable :=
  ⟨["Province/State", "Country/Region", "Lat", "Long", "1", "2", "3"],
   [⟨none, "A", 0, 0, [5, 3, 10]⟩,
    ⟨some "R", "B", 10, 20, [1, 2, 2]⟩,
    ⟨none, "B", 30, 40, [1, 1, 1]⟩]⟩

/-- Long rows used by the aggregation witness: two subdivisions of "A" on
day 1 (one with a missing region name), one on day 2, and a row whose date
failed to parse. -/
def lsW : List LongRow :=
  [⟨some "R1", "A", some 1, 5⟩, ⟨none, "A", some 1, 3⟩,
   ⟨none, "A", some 2, 4⟩, ⟨none, "B", none, 9⟩]

/-- A raw frame with the four identification columns and zero date
columns. -/
def rawNoDates : RawTable :=
  ⟨["Province/State", "Country/Region", "Lat", "Long"],
   [⟨none, "Z", 0, 0, []⟩]⟩

/-- A raw frame whose header lacks the `Country/Region` column. -/
def rawMissingId : RawTable :=
  ⟨["Province/State", "Lat", "Long", "1"], [⟨none, "Z", 0, 0, [1]⟩]⟩

/-- A previously derived row, used to observe whether a failing load
leaves the published dataset untouched. -/
def prevRow : CountryDayRow := ⟨"Z", 1, 5, 0, 0⟩

/-- A raw frame whose second date label parses with neither the primary
parser nor (through the overwritten column) the alternate one. -/
def rawC4 : RawTable :=
  ⟨["Province/State", "Country/Region", "Lat", "Long", "1", "x2"],
   [⟨none, "A", 0, 0, [5, 9]⟩]⟩

/-- A stand-in for parsing with the documented alternate date format: it
succeeds exactly on the label `"x2"` that the primary parser rejects. -/
def altParse (s : String) : Option Nat :=
  if s = "x2" then some 2 else none

/-! ### Helper lemmas: the per-group difference column -/

theorem diffClipGo_length :
    ∀ (prev : Int) (cs : List Int), (diffClipGo prev cs).length = cs.length
  | _, [] => rfl
  | prev, c :: rest => by
    simp only [diffClipGo, List.length_cons, diffClipGo_length c rest]

theorem diffClip_length : ∀ cs : List Int, (diffClip cs).length = cs.length
  | [] => rfl
  | c :: rest => by
    simp only [diffClip, List.length_cons, diffClipGo_length]

theorem diffClipGo_nonneg :
    ∀ (prev : Int) (cs : List Int), ∀ x ∈ diffClipGo prev cs, 0 ≤ x
  | _, [], x, hx => absurd hx (List.not_mem_nil x)
  | prev, c :: rest, x, hx => by
    rcases List.mem_cons.mp hx with h | h
    · subst h; exact le_max_left 0 _
    · exact diffClipGo_nonneg c rest x h

theorem diffClip_nonneg (cs : List Int) : ∀ x ∈ diffClip cs, 0 ≤ x := by
  cases cs with
  | nil => intro x hx; cases hx
  | cons c rest =>
    intro x hx
    rcases List.mem_cons.mp hx with h | h
    · subst h; exact le_refl 0
    · exact diffClipGo_nonneg c rest x h

theorem diffClipGo_get :
    ∀ (prev : Int) (cs : List Int) (i : Nat) (h : i < cs.length),
    (diffClipGo prev cs).get ⟨i, by rw [diffClipGo_length]; exact h⟩ =
      max 0 (cs.get ⟨i, h⟩ - (prev :: cs).get ⟨i, Nat.lt_succ_of_lt h⟩)
  | _, c :: rest, 0, _ => rfl
  | prev, c :: rest, i + 1, h =>
      diffClipGo_get c rest i (Nat.lt_of_succ_lt_succ h)

theorem diffClip_get_zero :
    ∀ (cs : List Int) (h : 0 < cs.length),
    (diffClip cs).get ⟨0, by rw [diffClip_length]; exact h⟩ = 0
  | _ :: _, _ => rfl

theorem diffClip_get_succ :
    ∀ (cs : List Int) (i : Nat) (h : i + 1 < cs.length),
    (diffClip cs).get ⟨i + 1, by rw [diffClip_length]; exact h⟩ =
      max 0 (cs.get ⟨i + 1, h⟩ - cs.get ⟨i, Nat.lt_of_succ_lt h⟩)
  | c :: rest, i, h => diffClipGo_get c rest i (Nat.lt_of_succ_lt_succ h)

/-! ### Helper lemmas: the rolling-average column -/

theorem rollMean7_length (xs : List Int) :
    (rollMean7 xs).length = xs.length := by
  simp [rollMean7]

theorem rollMean7_get (xs : List Int) (i : Nat) (h : i < xs.length) :
    (rollMean7 xs).get ⟨i, by rw [rollMean7_length]; exact h⟩ =
      ((((xs.take (i + 1)).drop (i + 1 - 7)).sum : Int) : ℚ) /
        ((((xs.take (i + 1)).drop (i + 1 - 7)).length : Nat) : ℚ) := by
  simp [rollMean7, List.get_eq_getElem]

/-! ### Helper lemmas: reassembling the frame -/

theorem combine_nil (ds : List Int) (qs : List ℚ) : combine [] ds qs = [] := by
  cases ds <;> cases qs <;> rfl

theorem combine_map_country (g : List AggRow) : ∀ (ds : List Int) (qs : List ℚ),
    ds.length = g.length → qs.length = g.length →
    (combine g ds qs).map (fun r => r.country) = g.map fun r => r.country := by
  induction g with
  | nil => intro ds qs _ _; rw [combine_nil]; rfl
  | cons r g ih =>
    intro ds qs h1 h2
    cases ds with
    | nil => simp at h1
    | cons d ds =>
      cases qs with
      | nil => simp at h2
      | cons q qs =>
        simp only [combine, List.map_cons]
        rw [ih ds qs (by simpa using h1) (by simpa using h2)]

theorem combine_map_date (g : List AggRow) : ∀ (ds : List Int) (qs : List ℚ),
    ds.length = g.length → qs.length = g.length →
    (combine g ds qs).map (fun r => r.date) = g.map fun r => r.date := by
  induction g with
  | nil => intro ds qs _ _; rw [combine_nil]; rfl
  | cons r g ih =>
    intro ds qs h1 h2
    cases ds with
    | nil => simp at h1
    | cons d ds =>
      cases qs with
      | nil => simp at h2
      | cons q qs =>
        simp only [combine, List.map_cons]
        rw [ih ds qs (by simpa using h1) (by simpa using h2)]

theorem combine_map_confirmed (g : List AggRow) : ∀ (ds : List Int) (qs : List ℚ),
    ds.length = g.length → qs.length = g.length →
    (combine g ds qs).map (fun r => r.confirmed) = g.map fun r => r.confirmed := by
  induction g with
  | nil => intro ds qs _ _; rw [combine_nil]; rfl
  | cons r g ih =>
    intro ds qs h1 h2
    cases ds with
    | nil => simp at h1
    | cons d ds =>
      cases qs with
      | nil => simp at h2
      | cons q qs =>
        simp only [combine, List.map_cons]
        rw [ih ds qs (by simpa using h1) (by simpa using h2)]

theorem combine_map_daily (g : List AggRow) : ∀ (ds : List Int) (qs : List ℚ),
    ds.length = g.length → qs.length = g.length →
    (combine g ds qs).map (fun r => r.daily_new) = ds := by
  induction g with
  | nil =>
    intro ds qs h1 _
    rw [combine_nil]
    cases ds with
    | nil => rfl
    | cons d ds => simp at h1
  | cons r g ih =>
    intro ds qs h1 h2
    cases ds with
    | nil => simp at h1
    | cons d ds =>
      cases qs with
      | nil => simp at h2
      | cons q qs =>
        simp only [combine, List.map_cons]
        rw [ih ds qs (by simpa using h1) (by simpa using h2)]

theorem combine_map_avg (g : List AggRow) : ∀ (ds : List Int) (qs : List ℚ),
    ds.length = g.length → qs.length = g.length →
    (combine g ds qs).map (fun r => r.seven_day_avg) = qs := by
  induction g with
  | nil =>
    intro ds qs _ h2
    rw [combine_nil]
    cases qs with
    | nil => rfl
    | cons q qs => simp at h2
  | cons r g ih =>
    intro ds qs h1 h2
    cases ds with
    | nil => simp at h1
    | cons d ds =>
      cases qs with
      | nil => simp at h2
      | cons q qs =>
        simp only [combine, List.map_cons]
        rw [ih ds qs (by simpa using h1) (by simpa using h2)]

theorem deriveGroup_map_country (g : List AggRow) :
    (deriveGroup g).map (fun r => r.country) = g.map fun r => r.country := by
  unfold deriveGroup
  exact combine_map_country g _ _
    (by rw [diffClip_length, List.length_map])
    (by rw [rollMean7_length, diffClip_length, List.length_map])

theorem deriveGroup_map_date (g : List AggRow) :
    (deriveGroup g).map (fun r => r.date) = g.map fun r => r.date := by
  unfold deriveGroup
  exact combine_map_date g _ _
    (by rw [diffClip_length, List.length_map])
    (by rw [rollMean7_length, diffClip_length, List.length_map])

theorem deriveGroup_map_confirmed (g : List AggRow) :
    (deriveGroup g).map (fun r => r.confirmed) = g.map fun r => r.confirmed := by
  unfold deriveGroup
  exact combine_map_confirmed g _ _
    (by rw [diffClip_length, List.length_map])
    (by rw [rollMean7_length, diffClip_length, List.length_map])

theorem deriveGroup_map_daily (g : List AggRow) :
    (deriveGroup g).map (fun r => r.daily_new) =
      diffClip (g.map fun r => r.confirmed) := by
  unfold deriveGroup
  exact combine_map_daily g _ _
    (by rw [diffClip_length, List.length_map])
    (by rw [rollMean7_length, diffClip_length, List.length_map])

theorem deriveGroup_map_avg (g : List AggRow) :
    (deriveGroup g).map (fun r => r.seven_day_avg) =
      rollMean7 (diffClip (g.map fun r => r.confirmed)) := by
  unfold deriveGroup
  exact combine_map_avg g _ _
    (by rw [diffClip_length, List.length_map])
    (by rw [rollMean7_length, diffClip_length, List.length_map])

theorem deriveGroup_length (g : List AggRow) :
    (deriveGroup g).length = g.length := by
  have := deriveGroup_map_country g
  have h2 := congrArg List.length this
  simpa using h2

/-! ### Helper lemmas: per-country decomposition of the derivation step -/

theorem filter_deriveGroup_self (g : List AggRow) (c : String)
    (hg : ∀ r ∈ g, r.country = c) :
    (deriveGroup g).filter (fun x => x.country == c) = deriveGroup g := by
  apply List.filter_eq_self.mpr
  intro x hx
  have hmem : x.country ∈ (deriveGroup g).map (fun r => r.country) :=
    List.mem_map_of_mem _ hx
  rw [deriveGroup_map_country] at hmem
  rcases List.mem_map.mp hmem with ⟨r, hr, he⟩
  simp [← he, hg r hr]

theorem filter_deriveGroup_ne (g : List AggRow) (c c2 : String)
    (hg : ∀ r ∈ g, r.country = c2) (hne : c2 ≠ c) :
    (deriveGroup g).filter (fun x => x.country == c) = [] := by
  apply List.filter_eq_nil_iff.mpr
  intro x hx
  have hmem : x.country ∈ (deriveGroup g).map (fun r => r.country) :=
    List.mem_map_of_mem _ hx
  rw [deriveGroup_map_country] at hmem
  rcases List.mem_map.mp hmem with ⟨r, hr, he⟩
  simp [← he, hg r hr, hne]

theorem flatMap_congr_mem {α β : Type} {l : List α} {f g : α → List β}
    (h : ∀ a ∈ l, f a = g a) : l.flatMap f = l.flatMap g := by
  induction l with
  | nil => rfl
  | cons a l ih =>
    rw [List.flatMap_cons, List.flatMap_cons, h a (List.mem_cons_self a l),
      ih fun b hb => h b (List.mem_cons_of_mem a hb)]

theorem flatMap_ite_single {α β : Type} [DecidableEq α] (c : α) (Y : List β) :
    ∀ L : List α, L.Nodup →
    (L.flatMap fun x => if x = c then Y else []) = if c ∈ L then Y else []
  | [], _ => by simp
  | a :: L, hnd => by
    rw [List.flatMap_cons, flatMap_ite_single c Y L hnd.of_cons]
    by_cases h : a = c
    · subst h
      have : a ∉ L := (List.nodup_cons.mp hnd).1
      simp [this]
    · simp [h, Ne.symm h]

/-- `groupby('Country/Region')` + per-group derivation commutes with
restriction to one country: the final rows of country `c` are exactly the
per-group derivation of the aggregated rows of country `c`. -/
theorem deriveMetrics_filter (rows : List AggRow) (c : String) :
    (deriveMetrics rows).filter (fun x => x.country == c) =
      deriveGroup (rows.filter fun r => r.country == c) := by
  unfold deriveMetrics
  rw [List.filter_flatMap]
  rw [flatMap_congr_mem (g := fun c2 =>
      if c2 = c then deriveGroup (rows.filter fun r => r.country == c) else [])]
  · rw [flatMap_ite_single c _ _ (List.nodup_dedup _)]
    by_cases h : c ∈ (rows.map fun r => r.country).dedup
    · rw [if_pos h]
    · rw [if_neg h]
      have : (rows.filter fun r => r.country == c) = [] := by
        apply List.filter_eq_nil_iff.mpr
        intro r hr hc
        exact h (List.mem_dedup.mpr
          (List.mem_map.mpr ⟨r, hr, by simpa using hc⟩))
      rw [this]
      rfl
  · intro c2 _
    by_cases h : c2 = c
    · subst h
      rw [if_pos rfl]
      exact filter_deriveGroup_self _ _ fun r hr => by
        simpa using (List.mem_filter.mp hr).2
    · rw [if_neg h]
      exact filter_deriveGroup_ne _ c c2
        (fun r hr => by simpa using (List.mem_filter.mp hr).2) h

theorem deriveMetrics_daily_nonneg (rows : List AggRow) :
    ∀ x ∈ deriveMetrics rows, 0 ≤ x.daily_new := by
  intro x hx
  unfold deriveMetrics at hx
  rcases List.mem_flatMap.mp hx with ⟨c2, _, hxg⟩
  have hmem : x.daily_new ∈
      (deriveGroup (rows.filter fun r => r.country == c2)).map
        fun r => r.daily_new :=
    List.mem_map_of_mem _ hxg
  rw [deriveGroup_map_daily] at hmem
  exact diffClip_nonneg _ _ hmem

/-! ### Helper lemmas: aggregation -/

theorem longKey_eq_some_iff {l : LongRow} {k : String × Nat} :
    longKey l = some k ↔ l.country = k.1 ∧ l.date = some k.2 := by
  unfold longKey
  cases hd : l.date with
  | none => simp
  | some d => simp [Prod.ext_iff, and_comm]

theorem mem_aggKeys_iff {ls : List LongRow} {k : String × Nat} :
    k ∈ aggKeys ls ↔ ∃ l ∈ ls, l.country = k.1 ∧ l.date = some k.2 := by
  unfold aggKeys
  rw [List.mem_insertionSort, List.mem_dedup, List.mem_filterMap]
  constructor
  · rintro ⟨l, hl, hk⟩
    exact ⟨l, hl, longKey_eq_some_iff.mp hk⟩
  · rintro ⟨l, hl, hk⟩
    exact ⟨l, hl, longKey_eq_some_iff.mpr hk⟩

theorem aggKeys_nodup (ls : List LongRow) : (aggKeys ls).Nodup :=
  ((List.perm_insertionSort keyLE _).nodup_iff).mpr (List.nodup_dedup _)

theorem aggKeys_sorted (ls : List LongRow) : List.Sorted keyLE (aggKeys ls) :=
  List.sorted_insertionSort keyLE _

theorem aggregate_map_key (ls : List LongRow) :
    (aggregate ls).map (fun r => (r.country, r.date)) = aggKeys ls := by
  unfold aggregate
  rw [List.map_map]
  have h : ((fun r : AggRow => (r.country, r.date)) ∘
      fun k : String × Nat => (⟨k.1, k.2, sumFor ls k⟩ : AggRow)) = id := by
    funext k; rfl
  rw [h, List.map_id]

theorem mem_aggregate_iff {ls : List LongRow} {r : AggRow} :
    r ∈ aggregate ls ↔
      (r.country, r.date) ∈ aggKeys ls ∧
        r.confirmed = sumFor ls (r.country, r.date) := by
  unfold aggregate
  rw [List.mem_map]
  constructor
  · rintro ⟨k, hk, he⟩
    rcases r with ⟨rc, rd, rv⟩
    cases he
    exact ⟨hk, rfl⟩
  · rintro ⟨hk, hv⟩
    refine ⟨(r.country, r.date), hk, ?_⟩
    rcases r with ⟨rc, rd, rv⟩
    simp only at hv
    rw [hv]

theorem sumFor_eq_filter_sum (ls : List LongRow) (k : String × Nat) :
    sumFor ls k =
      ((ls.filter fun l => l.country == k.1 && l.date == some k.2).map
        fun l => l.confirmed).sum := by
  induction ls with
  | nil => rfl
  | cons l ls ih =>
    by_cases h1 : l.country = k.1
    · by_cases h2 : l.date = some k.2
      · simp [sumFor, List.filter_cons, h1, h2] at ih ⊢
        rw [ih]
      · simp [sumFor, List.filter_cons, h1, h2] at ih ⊢
        rw [ih]
    · simp [sumFor, List.filter_cons, h1] at ih ⊢
      rw [ih]

theorem aggregate_filter_eq_map (ls : List LongRow) (c : String) :
    (aggregate ls).filter (fun r => r.country == c) =
      ((aggKeys ls).filter fun k => k.1 == c).map
        fun k => (⟨k.1, k.2, sumFor ls k⟩ : AggRow) := by
  unfold aggregate
  rw [List.filter_map]
  rfl

theorem aggregate_filter_dates_sorted (ls : List LongRow) (c : String) :
    List.Sorted (· < ·)
      (((aggregate ls).filter fun r => r.country == c).map fun r => r.date) := by
  rw [aggregate_filter_eq_map, List.map_map]
  have hs : List.Sorted keyLE ((aggKeys ls).filter fun k => k.1 == c) :=
    (aggKeys_sorted ls).filter _
  have hn : ((aggKeys ls).filter fun k => k.1 == c).Nodup :=
    (aggKeys_nodup ls).filter _
  have hp : ((aggKeys ls).filter fun k => k.1 == c).Pairwise
      fun a b => a.2 < b.2 := by
    refine (hs.and hn).imp_of_mem ?_
    intro a b ha hb hab
    have hac : a.1 = c := by
      simpa using (List.mem_filter.mp ha).2
    have hbc : b.1 = c := by
      simpa using (List.mem_filter.mp hb).2
    rcases hab.1 with h | ⟨_, h2⟩
    · exact absurd h (hac ▸ hbc ▸ strLt_irrefl c)
    · rcases Nat.lt_or_ge a.2 b.2 with hlt | hge
      · exact hlt
      · exfalso
        have : a.2 = b.2 := Nat.le_antisymm h2 hge
        exact hab.2 (Prod.ext (hac.trans hbc.symm) this)
  have := List.pairwise_map.mpr hp
  exact this.imp fun h => h

/-! ### Helper lemmas: index formulas inside one derived group -/

theorem get_of_list_eq {α : Type} {A B : List α} (hAB : A = B) (i : Nat)
    (hA : i < A.length) (hB : i < B.length) :
    A.get ⟨i, hA⟩ = B.get ⟨i, hB⟩ := by
  subst hAB; rfl

theorem get_field_eq_map_get {α β : Type} (l : List α) (f : α → β) (i : Nat)
    (h : i < l.length) :
    f (l.get ⟨i, h⟩) = (l.map f).get ⟨i, by rw [List.length_map]; exact h⟩ := by
  simp [List.get_eq_getElem]

theorem deriveGroup_daily_zero (gin : List AggRow)
    (h : 0 < (deriveGroup gin).length) :
    ((deriveGroup gin).get ⟨0, h⟩).daily_new = 0 := by
  have hg : 0 < gin.length := by rwa [deriveGroup_length] at h
  have hcums : 0 < (gin.map fun r => r.confirmed).length := by simpa using hg
  rw [get_field_eq_map_get (deriveGroup gin) (fun r => r.daily_new) 0 h,
    get_of_list_eq (deriveGroup_map_daily gin) 0
      (by rw [List.length_map]; exact h)
      (by rw [diffClip_length]; exact hcums)]
  exact diffClip_get_zero _ hcums

theorem deriveGroup_daily_succ (gin : List AggRow) (i : Nat)
    (h : i + 1 < (deriveGroup gin).length) :
    ((deriveGroup gin).get ⟨i + 1, h⟩).daily_new =
      max 0 (((deriveGroup gin).get ⟨i + 1, h⟩).confirmed -
        ((deriveGroup gin).get ⟨i, Nat.lt_of_succ_lt h⟩).confirmed) := by
  have hg : i + 1 < gin.length := by rwa [deriveGroup_length] at h
  have hcums : i + 1 < (gin.map fun r => r.confirmed).length := by simpa using hg
  have e2 : ∀ (j : Nat) (hj : j < (deriveGroup gin).length)
      (hj2 : j < (gin.map fun r => r.confirmed).length),
      ((deriveGroup gin).get ⟨j, hj⟩).confirmed =
        (gin.map fun r => r.confirmed).get ⟨j, hj2⟩ := by
    intro j hj hj2
    rw [get_field_eq_map_get (deriveGroup gin) (fun r => r.confirmed) j hj,
      get_of_list_eq (deriveGroup_map_confirmed gin) j
        (by rw [List.length_map]; exact hj) hj2]
  rw [get_field_eq_map_get (deriveGroup gin) (fun r => r.daily_new) (i + 1) h,
    get_of_list_eq (deriveGroup_map_daily gin) (i + 1)
      (by rw [List.length_map]; exact h)
      (by rw [diffClip_length]; exact hcums),
    e2 (i + 1) h hcums, e2 i (Nat.lt_of_succ_lt h) (Nat.lt_of_succ_lt hcums)]
  exact diffClip_get_succ _ i hcums

theorem deriveGroup_avg (gin : List AggRow) (i : Nat)
    (h : i < (deriveGroup gin).length) :
    ((deriveGroup gin).get ⟨i, h⟩).seven_day_avg =
      windowMean ((deriveGroup gin).map fun r => r.daily_new) i := by
  have hg : i < gin.length := by rwa [deriveGroup_length] at h
  have hd : i < (diffClip (gin.map fun r => r.confirmed)).length := by
    rw [diffClip_length, List.length_map]; exact hg
  rw [get_field_eq_map_get (deriveGroup gin) (fun r => r.seven_day_avg) i h,
    get_of_list_eq (deriveGroup_map_avg gin) i
      (by rw [List.length_map]; exact h)
      (by rw [rollMean7_length]; exact hd),
    rollMean7_get _ i hd, deriveGroup_map_daily]
  unfold windowMean
  rw [List.drop_take]
  have h1 : i + 1 - 7 = i - 6 := by omega
  rw [h1]
  have h2 : i + 1 - (i - 6) = i - (i - 6) + 1 := by omega
  rw [h2]

theorem countryRows_dates_sorted (parseP : String → Option Nat)
    (raw : RawTable) (c : String) :
    List.Sorted (· < ·) ((countryRows parseP raw c).map fun r => r.date) := by
  have hfe : countryRows parseP raw c =
      deriveGroup ((aggregate (convertDates parseP (melt raw))).filter
        fun r => r.country == c) :=
    deriveMetrics_filter _ c
  rw [hfe, deriveGroup_map_date]
  exact aggregate_filter_dates_sorted _ c

theorem filterCore_ok (cd : List CountryDayRow) (c sS eS : String)
    (sd ed : Nat) (hs : parseDateStr sS = some sd)
    (he : parseDateStr eS = some ed) :
    filterCore cd c sS eS =
      .ok (cd.filter fun r => r.country == c &&
        (decide (sd ≤ r.date) && decide (r.date ≤ ed))) := by
  unfold filterCore
  by_cases hemp : (cd.filter fun r => r.country == c).isEmpty
  · rw [if_pos hemp]
    have h1 : cd.filter (fun r => r.country == c) = [] := by
      simpa using hemp
    have h2 : cd.filter (fun r => r.country == c &&
        (decide (sd ≤ r.date) && decide (r.date ≤ ed))) = [] := by
      apply List.filter_eq_nil_iff.mpr
      intro x hx hpx
      have hnx := List.filter_eq_nil_iff.mp h1 x hx
      simp only [Bool.and_eq_true] at hpx
      exact hnx hpx.1
    rw [h1, h2]
  · rw [if_neg hemp, hs, he]
    show Except.ok ((cd.filter fun r => r.country == c).filter
        fun r => decide (sd ≤ r.date) && decide (r.date ≤ ed)) = _
    rw [List.filter_filter]
    congr 1
    exact List.filter_congr fun x _ => Bool.and_comm _ _

theorem strLe_ne_lt {a b : String} (hle : strLe a b) (hne : a ≠ b) :
    strLt a b := by
  rcases h : lexLtB a.data b.data with _ | _
  · exfalso
    apply hne
    cases a; cases b
    exact congrArg String.mk (lexLtB_connected h hle)
  · exact h

/-! ### Claims -/

/-- C3: for every input sequence of long-format rows, the aggregation step
groups by (country, date) and sums the cumulative count across the group —
the region/subdivision field, present or missing, is never consulted — and
its output has exactly one row per distinct (country, date) pair present
in the input, with no rows for absent pairs. -/
theorem claim_C3_aggregation (ls : List LongRow) :
    (∀ r ∈ aggregate ls,
      r.confirmed = ((ls.filter fun l =>
        l.country == r.country && l.date == some r.date).map
          fun l => l.confirmed).sum ∧
      ∃ l ∈ ls, l.country = r.country ∧ l.date = some r.date) ∧
    ((aggregate ls).map fun r => (r.country, r.date)).Nodup ∧
    (∀ l ∈ ls, ∀ d : Nat, l.date = some d →
      ∃ r ∈ aggregate ls, r.country = l.country ∧ r.date = d) := by
  refine ⟨?_, ?_, ?_⟩
  · intro r hr
    rcases mem_aggregate_iff.mp hr with ⟨hk, hv⟩
    refine ⟨?_, ?_⟩
    · rw [hv, sumFor_eq_filter_sum]
    · rcases mem_aggKeys_iff.mp hk with ⟨l, hl, h1, h2⟩
      exact ⟨l, hl, h1, h2⟩
  · rw [aggregate_map_key]
    exact aggKeys_nodup ls
  · intro l hl d hd
    have hk : (l.country, d) ∈ aggKeys ls :=
      mem_aggKeys_iff.mpr ⟨l, hl, rfl, by rw [hd]⟩
    refine ⟨⟨l.country, d, sumFor ls (l.country, d)⟩, ?_, rfl, rfl⟩
    unfold aggregate
    exact List.mem_map_of_mem _ hk

/-- Witness for C3 at `lsW`: the row ("A", day 1) sums the two
subdivisions of "A" on day 1 — one of them with a missing region name —
to 8, and stems from an input row. -/
theorem claim_C3_aggregation_witness :
    (⟨"A", 1, 8⟩ : AggRow).confirmed =
      ((lsW.filter fun l =>
        l.country == (⟨"A", 1, 8⟩ : AggRow).country &&
          l.date == some (⟨"A", 1, 8⟩ : AggRow).date).map
            fun l => l.confirmed).sum ∧
    ∃ l ∈ lsW, l.country = (⟨"A", 1, 8⟩ : AggRow).country ∧
      l.date = some (⟨"A", 1, 8⟩ : AggRow).date :=
  (claim_C3_aggregation lsW).1 ⟨"A", 1, 8⟩ (by decide)

/-- C5: on a loaded-and-derived dataset, `filter_data` returns exactly the
rows whose country equals the argument and whose date lies in
`[start, end]` (both ends inclusive), sorted ascending by date; when no
row matches — known country out of range, or unknown country — the result
is the empty sequence wrapped in `ok`, not an error. -/
theorem claim_C5_filter (parseP : String → Option Nat) (raw : RawTable)
    (c sS eS : String) (sd ed : Nat)
    (hs : parseDateStr sS = some sd) (he : parseDateStr eS = some ed)
    (hrange : sd ≤ ed) :
    filter_data parseP ⟨some raw, some (derivedTable parseP raw)⟩ c sS eS =
      .ok ((derivedTable parseP raw).filter fun r => r.country == c &&
        (decide (sd ≤ r.date) && decide (r.date ≤ ed))) ∧
    List.Sorted (· ≤ ·) (((derivedTable parseP raw).filter fun r =>
      r.country == c && (decide (sd ≤ r.date) && decide (r.date ≤ ed))).map
        fun r => r.date) ∧
    (∀ r : CountryDayRow,
      r ∈ ((derivedTable parseP raw).filter fun r => r.country == c &&
        (decide (sd ≤ r.date) && decide (r.date ≤ ed))) ↔
      (r ∈ derivedTable parseP raw ∧ r.country = c ∧
        sd ≤ r.date ∧ r.date ≤ ed)) := by
  refine ⟨?_, ?_, ?_⟩
  · show filterCore (derivedTable parseP raw) c sS eS = _
    exact filterCore_ok _ c sS eS sd ed hs he
  · have hff : ((derivedTable parseP raw).filter fun r => r.country == c &&
        (decide (sd ≤ r.date) && decide (r.date ≤ ed))) =
        (countryRows parseP raw c).filter
          fun r => decide (sd ≤ r.date) && decide (r.date ≤ ed) := by
      unfold countryRows
      rw [List.filter_filter]
      exact List.filter_congr fun x _ => Bool.and_comm _ _
    rw [hff]
    have hsub : (((countryRows parseP raw c).filter
        fun r => decide (sd ≤ r.date) && decide (r.date ≤ ed)).map
          fun r => r.date).Sublist
        ((countryRows parseP raw c).map fun r => r.date) :=
      List.Sublist.map _ (List.filter_sublist _)
    exact (List.Pairwise.sublist hsub
      (countryRows_dates_sorted parseP raw c)).imp fun h => le_of_lt h
  · intro r
    rw [List.mem_filter]
    simp [and_assoc]

/-- Witness for C5 at `rawW` with the range `[1, 2]`, instantiating the
filter equation, the sortedness of the result, and the membership
characterisation. -/
theorem claim_C5_filter_witness :
    filter_data parseDateStr
        ⟨some rawW, some (derivedTable parseDateStr rawW)⟩ "A" "1" "2" =
      .ok ((derivedTable parseDateStr rawW).filter fun r =>
        r.country == "A" && (decide (1 ≤ r.date) && decide (r.date ≤ 2))) ∧
    List.Sorted (· ≤ ·) (((derivedTable parseDateStr rawW).filter fun r =>
      r.country == "A" &&
        (decide (1 ≤ r.date) && decide (r.date ≤ 2))).map
          fun r => r.date) ∧
    (∀ r : CountryDayRow,
      r ∈ ((derivedTable parseDateStr rawW).filter fun r =>
        r.country == "A" && (decide (1 ≤ r.date) && decide (r.date ≤ 2))) ↔
      (r ∈ derivedTable parseDateStr rawW ∧ r.country = "A" ∧
        1 ≤ r.date ∧ r.date ≤ 2)) :=
  claim_C5_filter parseDateStr rawW "A" "1" "2" 1 2
    (by decide) (by decide) (by decide)

/-- C10: on a state carrying a derived dataset, a country not present in
it makes `filter_data` return its empty result immediately after the
country match — `ok []` for every pair of start/end arguments, including
ones whose date conversion would fail. -/
theorem claim_C10_unknown_country (parseP : String → Option Nat)
    (d : Option RawTable) (cd : List CountryDayRow) (c sS eS : String)
    (hnone : ∀ r ∈ cd, r.country ≠ c) :
    filter_data parseP ⟨d, some cd⟩ c sS eS = .ok [] := by
  show filterCore cd c sS eS = .ok []
  unfold filterCore
  have h1 : cd.filter (fun r => r.country == c) = [] :=
    List.filter_eq_nil_iff.mpr fun x hx hbx => hnone x hx (by simpa using hbx)
  rw [h1]
  rfl

/-- Witness for C10: an unknown country queried with two strings that no
date parser accepts still yields `ok []`. -/
theorem claim_C10_unknown_country_witness :
    filter_data parseDateStr ⟨none, some [prevRow]⟩
      "Atlantis" "garbage" "also bad" = .ok [] :=
  claim_C10_unknown_country parseDateStr none [prevRow]
    "Atlantis" "garbage" "also bad" (by decide)

/-- C9: `get_country_list` returns the distinct country names of the
loaded data, sorted lexicographically ascending (strictly, hence without
duplicates); it returns the empty sequence when no data has been loaded.
It is a total function, so it never fails. -/
theorem claim_C9_country_list :
    (∀ cd, get_country_list ⟨none, cd⟩ = []) ∧
    (∀ st : ProcState, List.Pairwise strLt (get_country_list st)) ∧
    (∀ (raw : RawTable) (cd) (c : String),
      c ∈ get_country_list ⟨some raw, cd⟩ ↔
        ∃ rr ∈ raw.rows, rr.country = c) := by
  refine ⟨fun cd => rfl, ?_, ?_⟩
  · intro st
    rcases st with ⟨d, cdo⟩
    cases d with
    | none => exact List.Pairwise.nil
    | some raw =>
      show List.Pairwise strLt
        (List.insertionSort strLe ((raw.rows.map fun r => r.country).dedup))
      have hsort : List.Sorted strLe
          (List.insertionSort strLe ((raw.rows.map fun r => r.country).dedup)) :=
        List.sorted_insertionSort strLe _
      have hnd : (List.insertionSort strLe
          ((raw.rows.map fun r => r.country).dedup)).Nodup :=
        ((List.perm_insertionSort strLe _).nodup_iff).mpr (List.nodup_dedup _)
      exact (hsort.and hnd).imp fun h => strLe_ne_lt h.1 h.2
  · intro raw cd c
    show c ∈ List.insertionSort strLe ((raw.rows.map fun r => r.country).dedup)
      ↔ _
    rw [List.mem_insertionSort, List.mem_dedup, List.mem_map]

/-- C1: for every country, processing its rows in ascending date order,
the derived `Daily_New` column satisfies `daily_new[0] = 0` and
`daily_new[i] = max(0, cumulative[i] - cumulative[i-1])` for `i > 0`;
consequently `daily_new ≥ 0` for every output row, even when the input
cumulative sequence decreases at some point. -/
theorem claim_C1_daily_new (parseP : String → Option Nat) (raw : RawTable)
    (c : String) :
    (∀ h : 0 < (countryRows parseP raw c).length,
      ((countryRows parseP raw c).get ⟨0, h⟩).daily_new = 0) ∧
    (∀ (i : Nat) (h : i + 1 < (countryRows parseP raw c).length),
      ((countryRows parseP raw c).get ⟨i + 1, h⟩).daily_new =
        max 0 (((countryRows parseP raw c).get ⟨i + 1, h⟩).confirmed -
          ((countryRows parseP raw c).get
            ⟨i, Nat.lt_of_succ_lt h⟩).confirmed)) ∧
    (∀ r ∈ derivedTable parseP raw, 0 ≤ r.daily_new) := by
  have hfe : countryRows parseP raw c =
      deriveGroup ((aggregate (convertDates parseP (melt raw))).filter
        fun r => r.country == c) :=
    deriveMetrics_filter _ c
  refine ⟨?_, ?_, ?_⟩
  · intro h
    rw [get_of_list_eq hfe 0 h (by rw [← hfe]; exact h)]
    exact deriveGroup_daily_zero _ (by rw [← hfe]; exact h)
  · intro i h
    rw [get_of_list_eq hfe (i + 1) h (by rw [← hfe]; exact h),
      get_of_list_eq hfe i (Nat.lt_of_succ_lt h)
        (by rw [← hfe]; exact Nat.lt_of_succ_lt h)]
    exact deriveGroup_daily_succ _ i (by rw [← hfe]; exact h)
  · exact deriveMetrics_daily_nonneg _

/-- Witness for C1 at `rawW`: country "A" has cumulative sequence
5, 3, 10, so at index 2 the formula gives `max 0 (10 - 3) = 7`. -/
theorem claim_C1_daily_new_witness :
    ((countryRows parseDateStr rawW "A").get ⟨2, by decide⟩).daily_new =
      max 0 (((countryRows parseDateStr rawW "A").get
        ⟨2, by decide⟩).confirmed -
        ((countryRows parseDateStr rawW "A").get ⟨1, by decide⟩).confirmed) :=
  (claim_C1_daily_new parseDateStr rawW "A").2.1 1 (by decide)

/-- C2: for every country and every index `i` into its chronologically
ordered derived rows, `seven_day_avg[i]` is the arithmetic mean of
`daily_new[max(0,i-6) .. i]` — a trailing window of at most 7 points,
using fewer points near the start, with no look-ahead and no zero
padding; in particular, on the daily sequence `[10,...,80]` the averaging
step yields 40 at index 6 and 10 at index 0. -/
theorem claim_C2_seven_day_avg (parseP : String → Option Nat)
    (raw : RawTable) (c : String) :
    (∀ (i : Nat) (h : i < (countryRows parseP raw c).length),
      ((countryRows parseP raw c).get ⟨i, h⟩).seven_day_avg =
        windowMean ((countryRows parseP raw c).map fun r => r.daily_new) i) ∧
    (rollMean7 [10, 20, 30, 40, 50, 60, 70, 80])[6]? = some 40 ∧
    (rollMean7 [10, 20, 30, 40, 50, 60, 70, 80])[0]? = some 10 := by
  have hlist : rollMean7 [10, 20, 30, 40, 50, 60, 70, 80] =
      [10, 15, 20, 25, 30, 35, 40, 50] := by
    norm_num [rollMean7, List.range_succ]
  refine ⟨?_, ?_, ?_⟩
  · intro i h
    have hfe : countryRows parseP raw c =
        deriveGroup ((aggregate (convertDates parseP (melt raw))).filter
          fun r => r.country == c) :=
      deriveMetrics_filter _ c
    have hB : i < (deriveGroup ((aggregate (convertDates parseP
        (melt raw))).filter fun r => r.country == c)).length := by
      rw [← hfe]; exact h
    have hm : windowMean ((countryRows parseP raw c).map
        fun r => r.daily_new) i =
        windowMean ((deriveGroup ((aggregate (convertDates parseP
          (melt raw))).filter fun r => r.country == c)).map
            fun r => r.daily_new) i := by
      rw [hfe]
    rw [get_of_list_eq hfe i h hB, hm]
    exact deriveGroup_avg _ i hB
  · rw [hlist]; rfl
  · rw [hlist]; rfl

/-- Witness for C2 at `rawW`: instantiates the window formula for country
"B" at index 2. -/
theorem claim_C2_seven_day_avg_witness :
    ((countryRows parseDateStr rawW "B").get ⟨2, by decide⟩).seven_day_avg =
      windowMean ((countryRows parseDateStr rawW "B").map
        fun r => r.daily_new) 2 :=
  (claim_C2_seven_day_avg parseDateStr rawW "B").1 2 (by decide)

/-- C6 is refuted on the code: in the Loaded-without-derivation state
(raw data present, `country_data` still `None`) `filter_data` does not
fail with the not-loaded error — it silently re-derives and answers. -/
theorem claim_C6_counterexample :
    filter_data parseDateStr ⟨some rawW, none⟩ "A" "1" "3" ≠
      Except.error ProcErr.notLoaded := by decide

/-- C6 (amended): `filter_data` fails with the not-loaded error only in
the fully unloaded state (no raw data); when raw data is loaded but not
yet derived it silently re-derives the dataset inside the query and
answers from the result; when a derived dataset exists it answers from
it directly. -/
theorem claim_C6_amended (parseP : String → Option Nat) (c sS eS : String) :
    filter_data parseP ⟨none, none⟩ c sS eS = .error .notLoaded ∧
    (∀ raw : RawTable,
      (idColumns.all fun cl => raw.columns.contains cl) = true →
      filter_data parseP ⟨some raw, none⟩ c sS eS =
        filterCore (derivedTable parseP raw) c sS eS) ∧
    (∀ (d : Option RawTable) (cd : List CountryDayRow),
      filter_data parseP ⟨d, some cd⟩ c sS eS = filterCore cd c sS eS) := by
  refine ⟨rfl, ?_, fun d cd => rfl⟩
  intro raw hid
  have hpd : process_data parseP ⟨some raw, none⟩ =
      .ok (derivedTable parseP raw,
        ⟨some raw, some (derivedTable parseP raw)⟩) := by
    show (if (idColumns.all fun cl => raw.columns.contains cl) = true
      then _ else _) = _
    rw [if_pos hid]
  show (match process_data parseP ⟨some raw, none⟩ with
    | Except.error e => Except.error e
    | Except.ok (cd, _) => filterCore cd c sS eS) = _
  rw [hpd]

/-- Witness for the amended C6 at `rawW`: the Loaded-without-derivation
state answers the same as querying the freshly derived table. -/
theorem claim_C6_amended_witness :
    filter_data parseDateStr ⟨some rawW, none⟩ "A" "1" "3" =
      filterCore (derivedTable parseDateStr rawW) "A" "1" "3" :=
  (claim_C6_amended parseDateStr "A" "1" "3").2.1 rawW (by decide)

/-- C7 is refuted on a frame with the four identification columns and
zero date columns: `process_data` does not fail — it publishes an empty
derived table, replacing the previously published one. -/
theorem claim_C7_counterexample :
    process_data parseDateStr ⟨some rawNoDates, some [prevRow]⟩ =
      Except.ok ([], ⟨some rawNoDates, some []⟩) ∧
    (⟨some rawNoDates, some [prevRow]⟩ : ProcState).country_data ≠
      (⟨some rawNoDates, some []⟩ : ProcState).country_data :=
  ⟨by decide, by decide⟩

/-- C7 (amended): when the frame lacks one of the four identification
columns, the load aborts with the structural error and — the error path
assigning nothing — the previously published dataset is untouched; but a
frame with the identification columns and zero date columns does not
fail: the load succeeds and publishes an empty derived table, replacing
any previous one. -/
theorem claim_C7_amended (parseP : String → Option Nat) (st : ProcState)
    (raw : RawTable) (hdata : st.data = some raw) :
    ((idColumns.all fun cl => raw.columns.contains cl) = false →
      process_data parseP st = .error .malformedInput) ∧
    ((idColumns.all fun cl => raw.columns.contains cl) = true →
      raw.columns.length ≤ 4 →
      process_data parseP st =
        .ok ([], { st with country_data := some [] })) := by
  rcases st with ⟨d, cdo⟩
  simp only at hdata
  subst hdata
  constructor
  · intro hid
    show (if (idColumns.all fun cl => raw.columns.contains cl) = true
      then _ else _) = _
    rw [if_neg (by rw [hid]; exact Bool.false_ne_true)]
  · intro hid hlen
    have h0 : (dateLabels raw).length = 0 := by
      unfold dateLabels
      rw [List.length_drop]
      omega
    have hml : melt raw = [] := by
      unfold melt
      rw [h0]
      rfl
    have hdt : derivedTable parseP raw = [] := by
      unfold derivedTable
      rw [hml]
      rfl
    show (if (idColumns.all fun cl => raw.columns.contains cl) = true
      then _ else _) = _
    rw [if_pos hid, hdt]

/-- Witness for the amended C7: a frame missing `Country/Region` aborts
the load, and `rawNoDates` (identification columns only) publishes the
empty table. -/
theorem claim_C7_amended_witness :
    process_data parseDateStr ⟨some rawMissingId, some [prevRow]⟩ =
      Except.error ProcErr.malformedInput ∧
    process_data parseDateStr ⟨some rawNoDates, some [prevRow]⟩ =
      Except.ok ([], { data := some rawNoDates, country_data := some [] }) :=
  ⟨(claim_C7_amended parseDateStr ⟨some rawMissingId, some [prevRow]⟩
      rawMissingId rfl).1 (by decide),
   (claim_C7_amended parseDateStr ⟨some rawNoDates, some [prevRow]⟩
      rawNoDates rfl).2 (by decide) (by decide)⟩

/-- C4 is refuted on the code: the "alternative date parsing" of lines
81–86 re-runs `pd.to_datetime` on the `Date` column that line 75 has
already overwritten with the coerced result — a `datetime64` column on
which the `format='%m/%d/%y'` argument is never applied to the original
labels, so a label rejected by the primary parse stays `NaT`.  At `rawC4`
the label "x2" is rejected by the primary parser and accepted by the
alternate one; the code leaves it `NaT` (the spec-modelled retry would
recover day 2), counts it (the count, logged to the debug list, is 1
after the retry), and the grouping step excludes the row, so the
published dataset has no ("A", 2) row. -/
theorem claim_C4_dead_retry :
    convertDates parseDateStr (melt rawC4) =
      [⟨none, "A", some 1, 5⟩, ⟨none, "A", none, 9⟩] ∧
    convertDatesSpec parseDateStr altParse (melt rawC4) =
      [⟨none, "A", some 1, 5⟩, ⟨none, "A", some 2, 9⟩] ∧
    natCountAfter parseDateStr (melt rawC4) = 1 ∧
    (derivedTable parseDateStr rawC4).map (fun r => (r.country, r.date)) =
      [("A", 1)] :=
  ⟨by decide, by decide, by decide, by decide⟩

/-- C8: for every country, the rows handed to the incremental/average
derivation — the output of the grouping step, which `derivedTable` feeds
to `deriveMetrics` unchanged — are sorted strictly ascending by date
within the country. -/
theorem claim_C8_sorted_before_derivation (parseP : String → Option Nat)
    (raw : RawTable) (c : String) :
    derivedTable parseP raw =
      deriveMetrics (aggregate (convertDates parseP (melt raw))) ∧
    List.Sorted (· < ·)
      (((aggregate (convertDates parseP (melt raw))).filter
        fun r => r.country == c).map fun r => r.date) :=
  ⟨rfl, aggregate_filter_dates_sorted _ c⟩

end Covid
